import Mathlib

/-!
Verification of the deal-detection pipeline of the `lbc` monitoring
repository, as a shallow embedding of its Python sources.

Prices are modelled as rationals (`ℚ`); every concrete value the
specification exercises is a small integer, exactly representable.
Network, file-system and notification effects are modelled as explicit
parameters (fetch results, estimator results, notification outcomes) or
as values in the `Except` monad, so that every function here is a pure,
executable counterpart of the corresponding Python code path.
-/

namespace LbcSpec

/-! ## market_analyzer.py — configuration constants (lines 26-31) -/

/-- Constant `PROFIT_MARGIN_PERCENT = 0.60` (market_analyzer.py line 26). -/
def PROFIT_MARGIN_PERCENT : ℚ := 60 / 100

/-- Constant `PROFIT_MARGIN_FIXED = 1000` (market_analyzer.py line 27). -/
def PROFIT_MARGIN_FIXED : ℚ := 1000

/-- Constant `MAX_PROFIT_PERCENT = 2.0` (market_analyzer.py line 31). -/
def MAX_PROFIT_PERCENT : ℚ := 2

/-! ## market_analyzer.py — `MarketAnalysis` and `analyze_deal` (lines 37-263) -/

/-- The `reason` strings produced by `analyze_deal` are one of four
f-string templates; each constructor records one template together with
the numeric values interpolated into it (lines 217, 239-254). -/
inductive Reason where
  /-- The no-estimate template of line 217. -/
  | noEstimate : Reason
  /-- The good-deal template of lines 239-242. -/
  | pepite (profit ratio minRequired : ℚ) : Reason
  /-- The implausible-estimate template of lines 244-247. -/
  | douteuse (ratio : ℚ) : Reason
  /-- The insufficient-margin template of lines 250-254. -/
  | pasRentable (missing : ℚ) : Reason
deriving DecidableEq

/-- The dataclass `MarketAnalysis` (market_analyzer.py lines 37-45). -/
structure MarketAnalysis where
  ad_price : ℚ
  market_price : Option ℚ
  price_sources : List String
  potential_profit : Option ℚ
  is_good_deal : Bool
  reason : Reason
deriving DecidableEq

/-- Modelled from the spec: the implicit verdict tier
{pepite, normal, unreliable, unclassifiable} of a DealVerdict (spec §3);
the tier is carried by the reason branch the verdict was produced in. -/
inductive Tier where
  | pepite | normal | unreliable | unclassifiable
deriving DecidableEq

/-- Modelled from the spec: each reason branch of `analyze_deal`
corresponds to one tier of spec §4.3 (no-estimate → unclassifiable,
implausible-estimate → unreliable, profitable → pepite, rest → normal). -/
def MarketAnalysis.tier (m : MarketAnalysis) : Tier :=
  match m.reason with
  | .noEstimate => .unclassifiable
  | .pepite _ _ _ => .pepite
  | .douteuse _ => .unreliable
  | .pasRentable _ => .normal

/-- Line 229: `profit_ratio = potential_profit / ad_price if ad_price > 0 else 0`
(market_analyzer.py line 229). -/
def profit_ratio (ad_price potential_profit : ℚ) : ℚ :=
  if 0 < ad_price then potential_profit / ad_price else 0

/-- Function `analyze_deal` (market_analyzer.py lines 196-263). -/
def analyze_deal (ad_price : ℚ) (market_price : Option ℚ)
    (sources : List String) : MarketAnalysis :=
  match market_price with
  | none =>
      { ad_price := ad_price
        market_price := none
        price_sources := sources
        potential_profit := none
        is_good_deal := false
        reason := .noEstimate }
  | some mp =>
      let potential_profit := mp - ad_price
      let required_profit_pct := PROFIT_MARGIN_PERCENT * ad_price
      let required_profit_abs := PROFIT_MARGIN_FIXED
      let min_required_profit := max required_profit_pct required_profit_abs
      let ratio := profit_ratio ad_price potential_profit
      let is_realistic : Bool := decide (ratio ≤ MAX_PROFIT_PERCENT)
      let is_good_deal : Bool :=
        decide (min_required_profit ≤ potential_profit) && is_realistic
      let reason : Reason :=
        if is_good_deal then .pepite potential_profit ratio min_required_profit
        else if !is_realistic then .douteuse ratio
        else .pasRentable (max 0 (min_required_profit - potential_profit))
      { ad_price := ad_price
        market_price := some mp
        price_sources := sources
        potential_profit := some potential_profit
        is_good_deal := is_good_deal
        reason := reason }

/-! ### Claims C1, C2, C10 -/

/-- C1: for every asking price `a > 0` and every non-null estimate `e`
whose profit ratio `(e - a) / a` does not exceed the cap of 2.0,
`analyze_deal` returns `is_good_deal = true` iff
`e - a ≥ max (0.60 * a) 1000` (boundary inclusive); in particular
`analyze_deal 2000 3200` is a good deal and `analyze_deal 2000 3199`
is not, for any source list. -/
theorem analyze_deal_threshold_boundary (a e : ℚ) (s : List String)
    (ha : 0 < a) (hcap : (e - a) / a ≤ MAX_PROFIT_PERCENT) :
    ((analyze_deal a (some e) s).is_good_deal = true ↔
        max (PROFIT_MARGIN_PERCENT * a) PROFIT_MARGIN_FIXED ≤ e - a)
    ∧ (analyze_deal 2000 (some 3200) s).is_good_deal = true
    ∧ (analyze_deal 2000 (some 3199) s).is_good_deal = false := by
  refine ⟨?_, ?_, ?_⟩
  · show (decide _ && decide _) = true ↔ _
    rw [profit_ratio, if_pos ha]
    simp [hcap]
  · show (decide _ && decide _) = true
    norm_num [profit_ratio, PROFIT_MARGIN_PERCENT, PROFIT_MARGIN_FIXED,
      MAX_PROFIT_PERCENT]
  · show (decide _ && decide _) = false
    norm_num [profit_ratio, PROFIT_MARGIN_PERCENT, PROFIT_MARGIN_FIXED,
      MAX_PROFIT_PERCENT]

/-- Witness for C1 at `a = 2000`, `e = 3200`. -/
theorem analyze_deal_threshold_boundary_witness :
    (0 : ℚ) < 2000 ∧ ((3200 : ℚ) - 2000) / 2000 ≤ MAX_PROFIT_PERCENT ∧
    (analyze_deal 2000 (some 3200) []).is_good_deal = true :=
  ⟨by norm_num, by norm_num [MAX_PROFIT_PERCENT],
    ((analyze_deal_threshold_boundary 2000 3200 [] (by norm_num)
      (by norm_num [MAX_PROFIT_PERCENT])).2.1)⟩

/-- C2: for every asking price `a > 0` and non-null estimate `e` whose
profit ratio exceeds the cap of 2.0, `analyze_deal` returns
`is_good_deal = false` and a verdict in the unreliable tier whose reason
is the implausible-estimate template, regardless of the absolute profit;
in particular `analyze_deal 1000 4000` is not a good deal even though
the raw profit of 3000 clears the threshold `max (0.60 * 1000) 1000`. -/
theorem analyze_deal_unreliable_cap (a e : ℚ) (s : List String)
    (ha : 0 < a) (hcap : MAX_PROFIT_PERCENT < (e - a) / a) :
    (analyze_deal a (some e) s).is_good_deal = false
    ∧ (analyze_deal a (some e) s).tier = Tier.unreliable
    ∧ (analyze_deal a (some e) s).reason = Reason.douteuse ((e - a) / a)
    ∧ (analyze_deal 1000 (some 4000) s).is_good_deal = false
    ∧ max (PROFIT_MARGIN_PERCENT * 1000) PROFIT_MARGIN_FIXED ≤ (4000 : ℚ) - 1000 := by
  have hr : profit_ratio a (e - a) = (e - a) / a := by
    rw [profit_ratio, if_pos ha]
  have hnot : ¬ ((e - a) / a ≤ MAX_PROFIT_PERCENT) := not_le.mpr hcap
  refine ⟨?_, ?_, ?_, ?_, ?_⟩
  · simp [analyze_deal, hr, hnot]
  · simp [analyze_deal, MarketAnalysis.tier, hr, hnot]
  · simp [analyze_deal, hr, hnot]
  · norm_num [analyze_deal, profit_ratio, PROFIT_MARGIN_PERCENT,
      PROFIT_MARGIN_FIXED, MAX_PROFIT_PERCENT]
  · norm_num [PROFIT_MARGIN_PERCENT, PROFIT_MARGIN_FIXED]

/-- Witness for C2 at `a = 1000`, `e = 4000`. -/
theorem analyze_deal_unreliable_cap_witness :
    (0 : ℚ) < 1000 ∧ MAX_PROFIT_PERCENT < ((4000 : ℚ) - 1000) / 1000 ∧
    (analyze_deal 1000 (some 4000) []).is_good_deal = false ∧
    (analyze_deal 1000 (some 4000) []).tier = Tier.unreliable :=
  have h1 : (0 : ℚ) < 1000 := by norm_num
  have h2 : MAX_PROFIT_PERCENT < ((4000 : ℚ) - 1000) / 1000 := by
    norm_num [MAX_PROFIT_PERCENT]
  ⟨h1, h2, (analyze_deal_unreliable_cap 1000 4000 [] h1 h2).1,
    (analyze_deal_unreliable_cap 1000 4000 [] h1 h2).2.1⟩

/-- C10: `analyze_deal` is total for every `ad_price` including `0`:
when the estimate is non-null and `ad_price ≤ 0`, the profit ratio is
defined to be `0` (no division by `ad_price` happens), so the
unreliability cap never fires and the verdict is decided purely by the
profit threshold. -/
theorem analyze_deal_total_zero_price (a mp : ℚ) (s : List String)
    (ha : a ≤ 0) :
    profit_ratio a (mp - a) = 0
    ∧ (analyze_deal a (some mp) s).tier ≠ Tier.unreliable
    ∧ ((analyze_deal a (some mp) s).is_good_deal = true ↔
        max (PROFIT_MARGIN_PERCENT * a) PROFIT_MARGIN_FIXED ≤ mp - a) := by
  have hr : profit_ratio a (mp - a) = 0 := by
    rw [profit_ratio, if_neg (not_lt.mpr ha)]
  have hreal : (0 : ℚ) ≤ MAX_PROFIT_PERCENT := by norm_num [MAX_PROFIT_PERCENT]
  refine ⟨hr, ?_, ?_⟩
  · simp only [analyze_deal, MarketAnalysis.tier, hr, hreal]
    split
    any_goals simp_all
    rename_i heq
    split at heq <;> simp_all
  · simp [analyze_deal, hr, hreal]

/-- Witness for C10 at `a = 0`, `mp = 5000`. -/
theorem analyze_deal_total_zero_price_witness :
    (0 : ℚ) ≤ 0 ∧ profit_ratio 0 ((5000 : ℚ) - 0) = 0 ∧
    (analyze_deal 0 (some 5000) []).tier ≠ Tier.unreliable :=
  ⟨le_refl 0, (analyze_deal_total_zero_price 0 5000 [] (le_refl 0)).1,
    (analyze_deal_total_zero_price 0 5000 [] (le_refl 0)).2.1⟩

/-! ## monitor.py — ads and the market-analysis price floor -/

/-- The fields of an `lbc.Ad` (produced by the external listing source)
that the modelled code paths consume: identifier, title and the nullable
asking price. -/
structure Ad where
  id : Nat
  title : String
  price : Option ℚ

/-- Constant `MARKET_ANALYSIS_ENABLED = True` (monitor.py line 44 and
discord_bot.py line 37). -/
def MARKET_ANALYSIS_ENABLED : Bool := true

/-- Modelled from the spec: `MIN_AD_PRICE`, the configured minimum asking
price of spec §4.3 rule 1 ("If asking_price below a configured minimum").
monitor.py line 31 imports `MIN_AD_PRICE` from `market_analyzer`, but no
definition of it appears under src; the value 500 follows the
repository's other price floors (the plausible-price lower bound of
`search_market_price` and the skip threshold of test_moto_1500cc.py).
The theorems below use only that it is positive. -/
def MIN_AD_PRICE : ℚ := 500

/-- Function `analyze_ad_market` (monitor.py lines 473-502). The
network-dependent estimate produced inside `analyze_ad`
(market_analyzer.py lines 270-302) is the parameter `est`;
`est ad = none` models an exception caught at monitor.py lines 500-502. -/
def analyze_ad_market (est : Ad → Option (Option ℚ × List String))
    (ad : Ad) : Option MarketAnalysis :=
  if !MARKET_ANALYSIS_ENABLED then none
  else
    match ad.price with
    | none => none
    | some p =>
      if p = 0 ∨ p < MIN_AD_PRICE then none
      else
        match est ad with
        | none => none
        | some (mp, srcs) => some (analyze_deal p mp srcs)

/-! ### Claim C5 -/

/-- C5 counterexample: `analyze_deal` applies no minimum-price rule at
all. At asking price 0 — below the configured minimum — with estimate
4000, it returns a good deal in the pepite tier, not an unclassifiable
verdict with `good_deal = false`. -/
theorem analyze_deal_no_floor_counterexample :
    (0 : ℚ) < MIN_AD_PRICE
    ∧ (analyze_deal 0 (some 4000) []).is_good_deal = true
    ∧ (analyze_deal 0 (some 4000) []).tier = Tier.pepite := by
  refine ⟨by norm_num [MIN_AD_PRICE], ?_, ?_⟩
  · norm_num [analyze_deal, profit_ratio, PROFIT_MARGIN_PERCENT,
      PROFIT_MARGIN_FIXED, MAX_PROFIT_PERCENT]
  · norm_num [analyze_deal, MarketAnalysis.tier, profit_ratio,
      PROFIT_MARGIN_PERCENT, PROFIT_MARGIN_FIXED, MAX_PROFIT_PERCENT]

/-- C5 amended: the price floor is enforced by the classifier's caller,
not by the classifier. In the monitor path, every ad whose asking price
is below the configured minimum receives no verdict at all:
`analyze_ad_market` returns `none` before the profit-threshold and
unreliability-cap rules can run. -/
theorem below_floor_has_no_verdict
    (est : Ad → Option (Option ℚ × List String)) (ad : Ad) (p : ℚ)
    (hp : ad.price = some p) (hmin : p < MIN_AD_PRICE) :
    analyze_ad_market est ad = none := by
  simp [analyze_ad_market, MARKET_ANALYSIS_ENABLED, hp, hmin]

/-- Witness for the amended C5 at an ad priced 100 < 500. -/
theorem below_floor_has_no_verdict_witness :
    (⟨7, "Honda CB 500", some 100⟩ : Ad).price = some 100
    ∧ (100 : ℚ) < MIN_AD_PRICE
    ∧ analyze_ad_market (fun _ => none) ⟨7, "Honda CB 500", some 100⟩ = none :=
  ⟨rfl, by norm_num [MIN_AD_PRICE],
    below_floor_has_no_verdict (fun _ => none) ⟨7, "Honda CB 500", some 100⟩
      100 rfl (by norm_num [MIN_AD_PRICE])⟩

/-! ## market_analyzer.py — `search_market_price` (lines 52-148) -/

/-- One text result of the DuckDuckGo provider (the `title`, `body`,
`href` fields read at market_analyzer.py lines 87-89). -/
structure DResult where
  title : String
  body : String
  href : String

/-- The query list built at market_analyzer.py lines 68-79 (the year is
always included when available). -/
def buildQueries (product_name : String) (year : Option String) :
    List String :=
  match year with
  | some y =>
      [s!"{product_name} {y} prix occasion france",
       s!"{product_name} {y} argus cote",
       s!"{product_name} {y} a vendre occasion"]
  | none =>
      [s!"{product_name} prix occasion france",
       s!"{product_name} argus occasion",
       s!"{product_name} a vendre"]

/-- Lines 108-119: keep a parsed price when it lies inside the plausible
range [500, 80000], appending it to the sample list and recording the
source href once (when non-empty and not already recorded). -/
def addPrice (href : String) (st : List ℚ × List String) (price : ℤ) :
    List ℚ × List String :=
  if 500 ≤ price ∧ price ≤ 80000 then
    (st.1 ++ [(price : ℚ)],
     if href ≠ "" ∧ href ∉ st.2 then st.2 ++ [href] else st.2)
  else st

/-- Lines 81-123: fetch each query in turn, extract prices from every
result, and stop before the next query once at least five samples are
collected. `fetch` is the DDGS text provider, whose failure is an
`Except.error`; `extract` is the regex extraction of lines 94-119 (the
numeric matches that survive `int` parsing). A provider error anywhere
aborts the whole collection. -/
def collectPrices (fetch : String → Except String (List DResult))
    (extract : DResult → List ℤ) :
    List String → List ℚ × List String →
      Except String (List ℚ × List String)
  | [], st => .ok st
  | q :: qs, st =>
    match fetch q with
    | .error e => .error e
    | .ok results =>
      let st := results.foldl
        (fun st r => (extract r).foldl (addPrice r.href) st) st
      if 5 ≤ st.1.length then .ok st
      else collectPrices fetch extract qs st

/-- Python `statistics.median` (called at line 146): sort ascending; middle
element for odd length, mean of the two middle elements for even
length. -/
def median (l : List ℚ) : ℚ :=
  let s := l.insertionSort (· ≤ ·)
  let n := s.length
  if n % 2 = 1 then s.getD (n / 2) 0
  else (s.getD (n / 2 - 1) 0 + s.getD (n / 2) 0) / 2

/-- Lines 133-140: the IQR outlier rejection. `q1` and `q3` are the
sorted samples at indices `len // 4` and `3 * len // 4`; samples outside
`[q1 - 1.5 * iqr, q3 + 1.5 * iqr]` are dropped. -/
def iqr_keep (prices : List ℚ) : List ℚ :=
  let sorted := prices.insertionSort (· ≤ ·)
  let q1 := sorted.getD (sorted.length / 4) 0
  let q3 := sorted.getD (3 * sorted.length / 4) 0
  let iqr := q3 - q1
  prices.filter (fun p =>
    decide (q1 - 3/2 * iqr ≤ p) && decide (p ≤ q3 + 3/2 * iqr))

/-- Lines 129-148: the aggregation tail of `search_market_price` — the
IQR rejection runs only with at least 4 samples, and the median of the
kept samples is returned with at most 3 sources. -/
def aggregate_prices (prices : List ℚ) (sources : List String) :
    Option ℚ × List String :=
  if prices.isEmpty then (none, sources)
  else
    let kept := if 4 ≤ prices.length then iqr_keep prices else prices
    if kept.isEmpty then (none, sources)
    else (some (median kept), sources.take 3)

/-- Function `search_market_price` (market_analyzer.py lines 52-148). -/
def search_market_price (fetch : String → Except String (List DResult))
    (extract : DResult → List ℤ) (product_name : String)
    (year : Option String) : Option ℚ × List String :=
  match collectPrices fetch extract
      ((buildQueries product_name year).take 2) ([], []) with
  | .error _ => (none, [])
  | .ok (prices, sources) => aggregate_prices prices sources

/-! ### Claims C6, C7 -/

/-- C6: for every collected sample list with at least 4 candidates, the
aggregation step of `search_market_price` keeps exactly the samples
inside [Q1 - 1.5·IQR, Q3 + 1.5·IQR] and returns their median; in
particular [1000, 1050, 1100, 1080, 9000] aggregates to 1065 — the
median of [1000, 1050, 1080, 1100] — not 1080 and not a value dragged
upward by 9000. -/
theorem iqr_median_aggregation (prices : List ℚ) (srcs : List String)
    (h4 : 4 ≤ prices.length) (hne : iqr_keep prices ≠ []) :
    (aggregate_prices prices srcs).1 = some (median (iqr_keep prices))
    ∧ iqr_keep prices = prices.filter (fun p =>
        let sorted := prices.insertionSort (· ≤ ·)
        let q1 := sorted.getD (sorted.length / 4) 0
        let q3 := sorted.getD (3 * sorted.length / 4) 0
        decide (q1 - 3/2 * (q3 - q1) ≤ p) &&
          decide (p ≤ q3 + 3/2 * (q3 - q1)))
    ∧ (aggregate_prices [1000, 1050, 1100, 1080, 9000] []).1 = some 1065
    ∧ median [1000, 1050, 1080, 1100] = 1065
    ∧ iqr_keep [1000, 1050, 1100, 1080, 9000] = [1000, 1050, 1100, 1080] := by
  have hnil : ¬ prices.isEmpty :=  by
    intro h
    rw [List.isEmpty_iff.mp h] at h4
    simp at h4
  refine ⟨?_, rfl, ?_, ?_, ?_⟩
  · rw [aggregate_prices, if_neg hnil]
    simp only [if_pos h4]
    rw [if_neg (by simpa [List.isEmpty_iff] using hne)]
  · norm_num [aggregate_prices, iqr_keep, median, List.insertionSort,
      List.orderedInsert]
  · norm_num [median, List.insertionSort, List.orderedInsert]
  · norm_num [iqr_keep, List.insertionSort, List.orderedInsert]

/-- Witness for C6 at the sample list [1000, 1050, 1100, 1080, 9000]. -/
theorem iqr_median_aggregation_witness :
    4 ≤ ([1000, 1050, 1100, 1080, 9000] : List ℚ).length
    ∧ iqr_keep [1000, 1050, 1100, 1080, 9000] ≠ []
    ∧ (aggregate_prices [1000, 1050, 1100, 1080, 9000] []).1 = some 1065 :=
  have hl : 4 ≤ ([1000, 1050, 1100, 1080, 9000] : List ℚ).length := by
    norm_num
  have hn : iqr_keep [1000, 1050, 1100, 1080, 9000] ≠ [] := by
    norm_num [iqr_keep, List.insertionSort, List.orderedInsert]
    exact List.cons_ne_nil _ _
  ⟨hl, hn, (iqr_median_aggregation _ [] hl hn).2.2.1⟩

/-- C7: for every product name and year, if the text-search provider
raises an error anywhere during `search_market_price`, the function
returns `(none, [])` — no exception propagates and no partial sample
data survives. -/
theorem provider_error_yields_none
    (fetch : String → Except String (List DResult))
    (extract : DResult → List ℤ) (product_name : String)
    (year : Option String) (e : String)
    (herr : collectPrices fetch extract
      ((buildQueries product_name year).take 2) ([], []) = .error e) :
    search_market_price fetch extract product_name year = (none, []) := by
  rw [search_market_price, herr]

/-- Witness for C7: a provider that always raises. -/
theorem provider_error_yields_none_witness :
    collectPrices (fun _ => .error "timeout") (fun _ => [])
      ((buildQueries "Honda Goldwing 1500" (some "1995")).take 2) ([], [])
      = .error "timeout"
    ∧ search_market_price (fun _ => .error "timeout") (fun _ => [])
        "Honda Goldwing 1500" (some "1995") = (none, []) :=
  ⟨rfl, provider_error_yields_none _ _ _ _ "timeout" rfl⟩

/-! ## monitor.py — dedup ledger and `process_search` (lines 293-609) -/

/-- Function `filter_new_ads` (monitor.py lines 342-353): keep the ads whose
stringified id is not in the seen set. -/
def filter_new_ads (ads : List Ad) (seen_ids : List String) : List Ad :=
  ads.filter (fun ad => decide (toString ad.id ∉ seen_ids))

/-- A Python set `add` on the seen-id set (modelled as a duplicate-free
list: adding an element already present changes nothing). -/
def setAdd (s : List String) (x : String) : List String :=
  if x ∈ s then s else x :: s

/-- The guard of monitor.py line 595:
`ad.price and ad.price >= MIN_AD_PRICE` (a `None` or zero price is
falsy). -/
def priceClearsFloor (ad : Ad) : Bool :=
  match ad.price with
  | none => false
  | some p => !decide (p = 0) && decide (MIN_AD_PRICE ≤ p)

/-- The per-ad loop of `process_search` (monitor.py lines 590-604):
analyze the market when enabled and the price clears the floor, count
pepites, count successful notifications, and add the ad id to the
in-memory seen set. `analysisOf` models `analyze_ad_market` (network
dependent), `notifyOk` the Discord webhook outcome. The accumulated
state is (success_count, pepite_count, seen_ids). -/
def processLoop (analysisOf : Ad → Option MarketAnalysis)
    (notifyOk : Ad → Option MarketAnalysis → Bool) :
    List Ad → Nat × Nat × List String → Nat × Nat × List String
  | [], st => st
  | ad :: rest, (success, pepites, seen) =>
    let market :=
      if MARKET_ANALYSIS_ENABLED && priceClearsFloor ad then analysisOf ad
      else none
    let pepites :=
      match market with
      | some m => if m.is_good_deal then pepites + 1 else pepites
      | none => pepites
    let success := if notifyOk ad market then success + 1 else success
    processLoop analysisOf notifyOk rest
      (success, pepites, setAdd seen (toString ad.id))

/-- The counts returned by one `process_search` call together with the
seen store it leaves behind. -/
structure RunStats where
  newCount : Nat
  sentCount : Nat
  pepiteCount : Nat
  store : List String
deriving DecidableEq

/-- The body of `process_search` after a successful fetch (monitor.py
lines 578-609): load the seen set, filter the new ads, return zero
counts without saving when nothing is new, otherwise run the loop and
leave the enlarged seen set as the store. -/
def process_core (analysisOf : Ad → Option MarketAnalysis)
    (notifyOk : Ad → Option MarketAnalysis → Bool)
    (ads : List Ad) (store : List String) : RunStats :=
  let new_ads := filter_new_ads ads store
  if new_ads.isEmpty then ⟨0, 0, 0, store⟩
  else
    let res := processLoop analysisOf notifyOk new_ads (0, 0, store)
    ⟨new_ads.length, res.1, res.2.1, res.2.2⟩

/-- Function `process_search` (monitor.py lines 540-609) at its error boundary:
a fetch failure is caught in-function (lines 571-576) and yields zero
counts, but the `save_seen_ads` call at line 607 is not inside any
`try`, so a failing ledger write (`saveFails`, possible only when there
was something new to save) raises out of `process_search` — modelled as
`Except.error`. -/
def process_search (analysisOf : Ad → Option MarketAnalysis)
    (notifyOk : Ad → Option MarketAnalysis → Bool)
    (fetched : Except Unit (List Ad)) (saveFails : Bool)
    (store : List String) : Except Unit RunStats :=
  match fetched with
  | .error _ => .ok ⟨0, 0, 0, store⟩
  | .ok ads =>
    let res := process_core analysisOf notifyOk ads store
    if saveFails ∧ res.newCount ≠ 0 then .error () else .ok res

lemma mem_setAdd {s : List String} {x y : String} :
    y ∈ setAdd s x ↔ y = x ∨ y ∈ s := by
  unfold setAdd
  split
  · next h => exact ⟨Or.inr, fun h2 => h2.elim (fun hy => hy ▸ h) id⟩
  · exact List.mem_cons

lemma processLoop_store_mem (a : Ad → Option MarketAnalysis)
    (n : Ad → Option MarketAnalysis → Bool) :
    ∀ (l : List Ad) (st : Nat × Nat × List String) (x : String),
      (x ∈ st.2.2 ∨ ∃ ad ∈ l, toString ad.id = x) →
      x ∈ (processLoop a n l st).2.2 := by
  intro l
  induction l with
  | nil =>
    intro st x hx
    rcases hx with h | ⟨ad, had, _⟩
    · exact h
    · simp at had
  | cons ad rest ih =>
    rintro ⟨s, p, seen⟩ x hx
    simp only [processLoop]
    apply ih
    rcases hx with h | ⟨ad2, had2, hid⟩
    · exact Or.inl (mem_setAdd.mpr (Or.inr h))
    · rcases List.mem_cons.mp had2 with rfl | h2
      · exact Or.inl (mem_setAdd.mpr (Or.inl hid.symm))
      · exact Or.inr ⟨ad2, h2, hid⟩

lemma process_core_covers (a : Ad → Option MarketAnalysis)
    (n : Ad → Option MarketAnalysis → Bool)
    (ads : List Ad) (store : List String) :
    ∀ ad ∈ ads, toString ad.id ∈ (process_core a n ads store).store := by
  intro ad had
  unfold process_core
  by_cases hemp : (filter_new_ads ads store).isEmpty
  · rw [if_pos hemp]
    have hnil : filter_new_ads ads store = [] := List.isEmpty_iff.mp hemp
    have := List.filter_eq_nil_iff.mp hnil ad had
    simpa using this
  · rw [if_neg hemp]
    by_cases hmem : toString ad.id ∈ store
    · exact processLoop_store_mem a n _ _ _ (Or.inl hmem)
    · have hin : ad ∈ filter_new_ads ads store := by
        simp [filter_new_ads, List.mem_filter, had, hmem]
      exact processLoop_store_mem a n _ _ _ (Or.inr ⟨ad, hin, rfl⟩)

/-! ### Claim C3 -/

/-- C3: running the per-profile processing a second time against an
unchanged fetch result and the seen store left by the first run yields
zero new listings, zero notifications and zero pepites — every listing
id of the fetch result is in the store left by the first run, so
`filter_new_ads` returns the empty list. -/
theorem process_search_idempotent (a : Ad → Option MarketAnalysis)
    (n : Ad → Option MarketAnalysis → Bool)
    (ads : List Ad) (store : List String) :
    filter_new_ads ads (process_core a n ads store).store = []
    ∧ process_core a n ads ((process_core a n ads store).store)
        = ⟨0, 0, 0, (process_core a n ads store).store⟩
    ∧ process_search a n (.ok ads) false
        ((process_core a n ads store).store)
        = .ok ⟨0, 0, 0, (process_core a n ads store).store⟩ := by
  have hcov := process_core_covers a n ads store
  have hfilter :
      filter_new_ads ads (process_core a n ads store).store = [] := by
    apply List.filter_eq_nil_iff.mpr
    intro ad had
    simpa using hcov ad had
  have hcore : process_core a n ads ((process_core a n ads store).store)
      = ⟨0, 0, 0, (process_core a n ads store).store⟩ := by
    conv_lhs => rw [process_core]
    rw [hfilter]
    simp
  refine ⟨hfilter, hcore, ?_⟩
  simp only [process_search, hcore]
  simp

/-! ### Claim C8 -/

/-- C8 counterexample: with one new listing and a failing ledger write,
`process_search` raises — the persistence failure escapes the
per-profile processing step instead of being logged and swallowed, and
(since `main`'s loop over profiles has no handler, monitor.py lines
643-647) aborts the remaining profiles of the cycle. -/
theorem persistence_error_escapes :
    process_search (fun _ => none) (fun _ _ => true)
      (.ok [⟨42, "Honda", some 4500⟩]) true [] = .error () := by
  simp [process_search, process_core, filter_new_ads, processLoop]

/-- C8 amended: fetch errors are contained inside `process_search` —
the profile is skipped with zero counts and an unchanged store — but a
ledger-write failure is not: whenever there are new listings to save
and the write fails, `process_search` raises, discarding that cycle's
in-memory dedup state (the store update is lost). -/
theorem process_search_error_boundary (a : Ad → Option MarketAnalysis)
    (n : Ad → Option MarketAnalysis → Bool) (saveFails : Bool)
    (store : List String) (e : Unit) (ads : List Ad)
    (hnew : filter_new_ads ads store ≠ []) :
    process_search a n (.error e) saveFails store = .ok ⟨0, 0, 0, store⟩
    ∧ process_search a n (.ok ads) true store = .error () := by
  constructor
  · rfl
  · have hne : ¬ (filter_new_ads ads store).isEmpty := by
      simpa [List.isEmpty_iff] using hnew
    have hlen : (filter_new_ads ads store).length ≠ 0 := by
      simpa [List.length_eq_zero] using hnew
    simp only [process_search, process_core, hne, if_neg hne]
    simp [hlen]

/-- Witness for the amended C8 at one concrete new listing. -/
theorem process_search_error_boundary_witness :
    filter_new_ads [⟨42, "Honda", some 4500⟩] [] ≠ []
    ∧ process_search (fun _ => none) (fun _ _ => true) (.error ()) true []
        = .ok ⟨0, 0, 0, []⟩
    ∧ process_search (fun _ => none) (fun _ _ => true)
        (.ok [⟨42, "Honda", some 4500⟩]) true [] = .error () :=
  have hnew : filter_new_ads [⟨42, "Honda", some 4500⟩] [] ≠ [] := by
    simp [filter_new_ads]
  ⟨hnew,
    (process_search_error_boundary (fun _ => none) (fun _ _ => true) true []
      () [⟨42, "Honda", some 4500⟩] hnew).1,
    (process_search_error_boundary (fun _ => none) (fun _ _ => true) true []
      () [⟨42, "Honda", some 4500⟩] hnew).2⟩

/-! ## discord_bot.py — `do_check` (lines 664-808) -/

/-- Truthiness of `ad.price` in the guard of discord_bot.py line 704 (there
is no minimum-price check in this path). -/
def adPriceTruthy (ad : Ad) : Bool :=
  match ad.price with
  | none => false
  | some p => !decide (p = 0)

/-- Lines 703-732: split the new ads, in order, into the pepite bucket
and the normal bucket; `analysisOf ad = none` models an exception from
`analyze_ad` (caught at lines 728-730: the ad joins the normal bucket
with no analysis), as does a falsy price or disabled analysis. -/
def classifyStep (analysisOf : Ad → Option MarketAnalysis)
    (acc : List (Ad × MarketAnalysis) × List (Ad × Option MarketAnalysis))
    (ad : Ad) :
    List (Ad × MarketAnalysis) × List (Ad × Option MarketAnalysis) :=
  if MARKET_ANALYSIS_ENABLED && adPriceTruthy ad then
    match analysisOf ad with
    | some m =>
        if m.is_good_deal then (acc.1 ++ [(ad, m)], acc.2)
        else (acc.1, acc.2 ++ [(ad, some m)])
    | none => (acc.1, acc.2 ++ [(ad, none)])
  else (acc.1, acc.2 ++ [(ad, none)])

/-- The bucket split of `do_check` over the whole new-ads list. -/
def classifyAds (analysisOf : Ad → Option MarketAnalysis)
    (ads : List Ad) :
    List (Ad × MarketAnalysis) × List (Ad × Option MarketAnalysis) :=
  ads.foldl (classifyStep analysisOf) ([], [])

/-- The seen-set updates `do_check` performs before persisting
(discord_bot.py lines 694-808): ids of the first five pepites (line
763), ids of the first five normal ads — whether skipped as
unprofitable or shown (lines 776 and 801) — and ids of the remaining
normal ads (lines 805-806). No statement adds the ids of pepites beyond
the first five. When nothing is new, nothing is saved. -/
def doCheckSeen (analysisOf : Ad → Option MarketAnalysis)
    (ads : List Ad) (seen : List String) : List String :=
  let new_ads := filter_new_ads ads seen
  if new_ads.isEmpty then seen
  else
    let buckets := classifyAds analysisOf new_ads
    let seen1 := (buckets.1.take 5).foldl
      (fun s p => setAdd s (toString p.1.id)) seen
    let seen2 := (buckets.2.take 5).foldl
      (fun s p => setAdd s (toString p.1.id)) seen1
    (buckets.2.drop 5).foldl (fun s p => setAdd s (toString p.1.id)) seen2

/-! ### Claim C4 -/

/-- The verdict `analyze_deal` assigns to a 2000-priced listing with a
3200 market estimate: a good deal (claim C1's boundary case). -/
def goodDealAnalysis : MarketAnalysis := analyze_deal 2000 (some 3200) []

/-- Six new listings, all of which `do_check` classifies as pepites. -/
def sixPepites : List Ad :=
  [⟨1, "Honda Goldwing 1500", some 2000⟩,
   ⟨2, "Honda Goldwing 1500", some 2000⟩,
   ⟨3, "Honda Goldwing 1500", some 2000⟩,
   ⟨4, "Honda Goldwing 1500", some 2000⟩,
   ⟨5, "Honda Goldwing 1500", some 2000⟩,
   ⟨6, "Honda Goldwing 1500", some 2000⟩]

/-- C4 failing input: a `do_check` cycle whose new-listing set holds six
good-deal listings (ids 1..6). The first five pepites are notified and
marked seen, but the sixth — beyond the notification cap of 5 — is
never added to the seen set before it is persisted, so it will be
re-notified in a later cycle. This contradicts the claim (and spec §4.5
step 5 / §3 SeenSet invariant) that every processed listing id is
marked seen, including listings beyond the cap. -/
theorem pepite_beyond_cap_not_marked_seen :
    goodDealAnalysis.is_good_deal = true
    ∧ "5" ∈ doCheckSeen (fun _ => some goodDealAnalysis) sixPepites []
    ∧ "6" ∉ doCheckSeen (fun _ => some goodDealAnalysis) sixPepites [] := by
  have hgd : goodDealAnalysis.is_good_deal = true := by
    norm_num [goodDealAnalysis, analyze_deal, profit_ratio,
      PROFIT_MARGIN_PERCENT, PROFIT_MARGIN_FIXED, MAX_PROFIT_PERCENT]
  have hpr : ∀ p : ℚ, p = 2000 → ¬ p = 0 := by intro p hp; rw [hp]; norm_num
  refine ⟨hgd, ?_, ?_⟩ <;>
    simp [doCheckSeen, classifyAds, classifyStep, sixPepites,
      filter_new_ads, setAdd, adPriceTruthy, MARKET_ANALYSIS_ENABLED,
      hgd, hpr 2000 rfl] <;>
    decide

/-! ## Catalog Matcher — modelled from the spec (§4.1)

No Catalog Matcher implementation appears under src; the component is
specified in spec §4.1 (with the tie-break of §3) only, so it is
modelled here from the spec's words. -/

/-- Modelled from the spec: title normalization (§4.1 "normalize title
(uppercase, strip non-alphanumeric, collapse whitespace)"), producing
the title's token list. -/
def normalizeTokens (title : String) : List String :=
  ((title.toList.map
      (fun c => if c.isAlphanum then c.toUpper else ' ')).splitOn ' ').map
    List.asString |>.filter (fun t => !t.isEmpty)

/-- Modelled from the spec: the score of one catalog key (§4.1 "score =
count of key-tokens present in the normalized title; add a fixed bonus
(+10) if all key-tokens are present"). -/
def keyScore (titleTokens : List String) (key : List String) : Nat :=
  let base := (key.filter (fun t => titleTokens.contains t)).length
  if key.all (fun t => titleTokens.contains t) then base + 10 else base

/-- Modelled from the spec: `match(title) -> Optional[CatalogKey]`
(§4.1): keep the highest-scoring key — ties broken by iteration order,
the first key reaching the top score wins (§3) — and require score ≥ 2
or return none; the empty catalog always returns none. -/
def matchCatalog (catalog : List (List String)) (title : String) :
    Option (List String) :=
  let toks := normalizeTokens title
  match catalog with
  | [] => none
  | k :: ks =>
    let best := ks.foldl
      (fun b k2 => if keyScore toks b < keyScore toks k2 then k2 else b) k
    if 2 ≤ keyScore toks best then some best else none

lemma foldl_best_mem {α : Type} (f : α → Nat) :
    ∀ (ks : List α) (k : α),
      ks.foldl (fun b k2 => if f b < f k2 then k2 else b) k ∈ k :: ks := by
  intro ks
  induction ks with
  | nil => intro k; simp
  | cons k2 rest ih =>
    intro k
    simp only [List.foldl_cons]
    rcases List.mem_cons.mp (ih (if f k < f k2 then k2 else k)) with h1 | h1
    · rw [h1]
      split
      · exact List.mem_cons_of_mem _ (List.mem_cons_self _ _)
      · exact List.mem_cons_self _ _
    · exact List.mem_cons_of_mem _ (List.mem_cons_of_mem _ h1)

lemma foldl_best_le {α : Type} (f : α → Nat) :
    ∀ (ks : List α) (k : α), ∀ x ∈ k :: ks,
      f x ≤ f (ks.foldl (fun b k2 => if f b < f k2 then k2 else b) k) := by
  intro ks
  induction ks with
  | nil =>
    intro k x hx
    rcases List.mem_cons.mp hx with rfl | h
    · exact le_refl _
    · simp at h
  | cons k2 rest ih =>
    intro k x hx
    simp only [List.foldl_cons]
    have hhead : f k ≤ f (if f k < f k2 then k2 else k) := by
      split
      · next h => exact le_of_lt h
      · exact le_refl _
    have hsecond : f k2 ≤ f (if f k < f k2 then k2 else k) := by
      split
      · exact le_refl _
      · next h => exact not_lt.mp h
    rcases List.mem_cons.mp hx with rfl | hx2
    · exact le_trans hhead (ih _ _ (List.mem_cons_self _ _))
    · rcases List.mem_cons.mp hx2 with rfl | hx3
      · exact le_trans hsecond (ih _ _ (List.mem_cons_self _ _))
      · exact ih _ x (List.mem_cons_of_mem _ hx3)

/-! ### Claim C9 -/

/-- C9: the Catalog Matcher returns none unless some catalog key scores
at least 2 against the normalized title; when it returns a key, that
key is in the catalog, scores at least 2, and no catalog key scores
higher (so it never returns a key with fewer overlapping tokens than a
higher-scoring alternative); and for the empty catalog it always
returns none. `matchCatalog` is a pure function of its inputs, so it
has no side effects. -/
theorem matchCatalog_spec (catalog : List (List String)) (title : String) :
    (catalog = [] → matchCatalog catalog title = none)
    ∧ ((∀ k ∈ catalog, keyScore (normalizeTokens title) k < 2) →
        matchCatalog catalog title = none)
    ∧ (∀ k, matchCatalog catalog title = some k →
        k ∈ catalog ∧ 2 ≤ keyScore (normalizeTokens title) k ∧
        ∀ k2 ∈ catalog, keyScore (normalizeTokens title) k2 ≤
          keyScore (normalizeTokens title) k) := by
  refine ⟨?_, ?_, ?_⟩
  · rintro rfl
    rfl
  · intro hlt
    cases catalog with
    | nil => rfl
    | cons k0 ks =>
      simp only [matchCatalog]
      rw [if_neg]
      exact not_le.mpr
        (hlt _ (foldl_best_mem (keyScore (normalizeTokens title)) ks k0))
  · intro k hk
    cases catalog with
    | nil => simp [matchCatalog] at hk
    | cons k0 ks =>
      simp only [matchCatalog] at hk
      split at hk
      · next h2 =>
        rcases Option.some.inj hk with rfl
        exact ⟨foldl_best_mem (keyScore (normalizeTokens title)) ks k0, h2,
          fun k2 hk2 =>
            foldl_best_le (keyScore (normalizeTokens title)) ks k0 k2 hk2⟩
      · exact absurd hk (by simp)

/-- Witness for C9: the empty catalog at a concrete title, and a
concrete two-token match. -/
theorem matchCatalog_spec_witness :
    matchCatalog [] "Honda Goldwing 1500 SE" = none
    ∧ matchCatalog [["HONDA", "GOLDWING"]] "Honda Goldwing 1500 SE"
        = some ["HONDA", "GOLDWING"] :=
  ⟨(matchCatalog_spec [] "Honda Goldwing 1500 SE").1 rfl, by decide⟩

end LbcSpec
